import Mathlib

/-
Verification of the document-conversion core of this repository: the
`DocumentConverter` operations (`allowed_file`, `images_to_pdf`,
`merge_pdfs`, `split_pdf`, `get_pdf_info`) from
`app/services/converters.py`, and the cleanup sweep
(`FileCleanupService.cleanup_old_files`) from `app/services/cleanup.py`.

Modelling conventions:
- A PDF document is its list of pages; page contents are abstract values
  (a type parameter, or the concrete `Page` type at the storage level).
- An image is its PIL mode string plus abstract pixel data; PIL pixel
  operations the code delegates (`Image.new` on a white background,
  `paste` with or without an alpha-band mask, `convert('RGB')`,
  `split()[-1]`) are modelled as constructors of the `Pixels` type, so
  the dataflow of the code is recorded exactly without inventing pixel
  semantics.
- Filenames are character lists; Python's `str.lower` on extension
  characters is `Char.toLower`.
- The storage area is a map from path to file data; the filesystem seen
  by the sweep is a list of directory entries with a modification time,
  an is-regular-file flag, and a flag telling whether `os.remove` on
  that entry would raise (the environment's behaviour, used to model
  per-file delete failures).
- Python exceptions are the error kinds of the specification:
  `ValueError` on an empty input list and an undecodable image
  (`PIL.UnidentifiedImageError`) are `invalidInput`; an unparsable or
  missing PDF (`PyPDF2.errors.PdfReadError`) is `corruptDocument`.
- Machine integers: Python's ints are unbounded, so `Int`/`Nat` are
  exact models; `reader.pages[i]` raises `IndexError` exactly when
  `i >= total_pages` (the index is never negative after clamping),
  modelled by the `Option`-valued list lookup.
-/

namespace Converters

/-- Error kinds of the specification, standing for the Python exceptions
raised by the pipeline (see the modelling conventions above). -/
inductive ConvError where
  | invalidInput
  | corruptDocument
  | notFound
  | ioFailure
deriving DecidableEq

/-- Abstract pixel data of an image.  Constructors record the PIL
operations performed by `images_to_pdf` (converters.py lines 85-92):
`src` is the decoded file's data, `lastBand` is `img.split()[-1]`,
`pastedMasked bgR bgG bgB content mask` is a fresh background of the
given colour with `content` pasted using `mask`, `pastedUnmasked` the
same without a mask, and `convertedRGB` is `img.convert('RGB')`. -/
inductive Pixels where
  | src (id : Nat)
  | lastBand (p : Pixels)
  | pastedMasked (bgR bgG bgB : Nat) (content : Pixels) (mask : Pixels)
  | pastedUnmasked (bgR bgG bgB : Nat) (content : Pixels)
  | convertedRGB (p : Pixels)
deriving DecidableEq

/-- A decoded image: its PIL mode string and its pixel data. -/
structure Image where
  mode : String
  pixels : Pixels
deriving DecidableEq

/-- ALLOWED_IMAGE_EXTENSIONS of converters.py line 15, as lowered
character lists. -/
def ALLOWED_IMAGE_EXTENSIONS : List (List Char) :=
  ["png".toList, "jpg".toList, "jpeg".toList]

/-- ALLOWED_PDF_EXTENSIONS of converters.py line 16. -/
def ALLOWED_PDF_EXTENSIONS : List (List Char) :=
  ["pdf".toList]

/-- Python `filename.rsplit('.', 1)[1]`: the characters after the last
dot (meaningful only when a dot is present, as in the source's guard). -/
def afterLastDot (cs : List Char) : List Char :=
  ((cs.reverse.takeWhile (fun c => c != '.')).reverse)

/-- The lowered extension: `filename.rsplit('.', 1)[1].lower()` of
converters.py line 42. -/
def lowerExt (cs : List Char) : List Char :=
  (afterLastDot cs).map Char.toLower

/-- DocumentConverter.allowed_file (converters.py lines 28-49): false
when the name holds no dot, otherwise membership of the lowered
extension in the allow-set selected by `file_type`. -/
def allowed_file (filename : List Char) (file_type : String) : Bool :=
  if filename.contains '.' = false then
    false
  else if file_type = "image" then
    ALLOWED_IMAGE_EXTENSIONS.contains (lowerExt filename)
  else if file_type = "pdf" then
    ALLOWED_PDF_EXTENSIONS.contains (lowerExt filename)
  else
    (ALLOWED_IMAGE_EXTENSIONS ++ ALLOWED_PDF_EXTENSIONS).contains (lowerExt filename)

/-- The per-image normalization of converters.py lines 85-94: modes
RGBA, LA and P are pasted onto a fresh white (255,255,255) background —
with the image's last band as mask exactly when the mode is RGBA —
any other non-RGB mode goes through `convert('RGB')`, and RGB images
are kept as they are. -/
def normalizeImage (img : Image) : Image :=
  if img.mode = "RGBA" ∨ img.mode = "LA" ∨ img.mode = "P" then
    if img.mode = "RGBA" then
      { mode := "RGB",
        pixels := Pixels.pastedMasked 255 255 255 img.pixels (Pixels.lastBand img.pixels) }
    else
      { mode := "RGB", pixels := Pixels.pastedUnmasked 255 255 255 img.pixels }
  else if ¬ (img.mode = "RGB") then
    { mode := "RGB", pixels := Pixels.convertedRGB img.pixels }
  else
    img

/-- Opening one input of `images_to_pdf`: `Image.open` yields the
decoded image or raises on an undecodable file (kind `invalidInput`,
per the specification's naming of that failure). -/
def decodeOrFail : Option Image → Except ConvError Image
  | some i => Except.ok i
  | none => Except.error ConvError.invalidInput

/-- DocumentConverter.images_to_pdf (converters.py lines 68-110), page
content only: raises on an empty list (line 79-80), else decodes and
normalizes each input in order; the saved PDF has one page per image in
list order (lines 99-108 produce all pages in order in both the
single-image and the multi-image branch). -/
def images_to_pdf (imgs : List (Option Image)) : Except ConvError (List Image) :=
  if imgs.isEmpty then
    Except.error ConvError.invalidInput
  else
    imgs.mapM (fun o => Except.map normalizeImage (decodeOrFail o))

/-- Reading one input of `merge_pdfs`: `merger.append` parses the file
or raises `PdfReadError` (kind `corruptDocument`). -/
def parsePdfFile {α : Type} : Option (List α) → Except ConvError (List α)
  | some pages => Except.ok pages
  | none => Except.error ConvError.corruptDocument

/-- DocumentConverter.merge_pdfs (converters.py lines 112-135), page
content only: raises on an empty list (lines 123-124), else appends
every document's pages in input order and writes the concatenation. -/
def merge_pdfs {α : Type} (pdfs : List (Option (List α))) : Except ConvError (List α) :=
  if pdfs.isEmpty then
    Except.error ConvError.invalidInput
  else
    Except.map List.flatten (pdfs.mapM parsePdfFile)

/-- `total_pages = len(reader.pages)` (converters.py line 153) as an
integer, as Python arithmetic on it is unbounded. -/
def totalPages {α : Type} (pages : List α) : Int :=
  pages.length

/-- The start bound of `split_pdf` after defaulting and clamping
(converters.py lines 156-157 and 162): a missing start defaults to 1,
then `start_page = max(1, min(start_page, total_pages))`. -/
def startClamped {α : Type} (pages : List α) (start_page : Option Int) : Int :=
  max 1 (min (start_page.getD 1) (totalPages pages))

/-- The end bound of `split_pdf` after defaulting and clamping
(converters.py lines 158-159 and 163): a missing end defaults to
`total_pages`, then `end_page = max(start_page, min(end_page,
total_pages))` with `start_page` already clamped. -/
def endClamped {α : Type} (pages : List α) (start_page end_page : Option Int) : Int :=
  max (startClamped pages start_page) (min (end_page.getD (totalPages pages)) (totalPages pages))

/-- DocumentConverter.split_pdf (converters.py lines 137-174), page
content only: after defaulting and clamping, the loop
`for page_num in range(start_page - 1, end_page)` copies
`reader.pages[page_num]` in order; a lookup at an index past the last
page raises `IndexError`, modelled by `none`. -/
def split_pdf {α : Type} (pages : List α) (start_page end_page : Option Int) :
    Option (List α) :=
  (List.range' (startClamped pages start_page - 1).toNat
      (endClamped pages start_page end_page - (startClamped pages start_page - 1)).toNat).mapM
    (fun i => pages[i]?)

/-- One directory entry as the sweep sees it: name, whether it is a
regular file, its modification time in seconds, and whether the
environment would make `os.remove` on it raise. -/
structure FsEntry where
  name : String
  isFile : Bool
  mtime : Int
  deleteFails : Bool
deriving DecidableEq

/-- The storage directory as the sweep sees it: whether the folder
exists, and its entries. -/
structure Folder where
  present : Bool
  entries : List FsEntry
deriving DecidableEq

/-- The deletion test of cleanup.py lines 44-51: a regular file whose
age `now - mtime` strictly exceeds the threshold. -/
def oldFile (now maxAge : Int) (e : FsEntry) : Bool :=
  e.isFile && decide (maxAge < now - e.mtime)

/-- An entry the sweep actually removes: old, a regular file, and its
delete does not raise (cleanup.py lines 52-57 keep a file whose
`os.remove` raised, logging instead). -/
def deletable (now maxAge : Int) (e : FsEntry) : Bool :=
  oldFile now maxAge e && !e.deleteFails

/-- FileCleanupService.cleanup_old_files (cleanup.py lines 26-65):
returns immediately with 0 when the folder does not exist (lines
33-34); otherwise one pass over the entries removes each deletable one
and counts it, keeping directories, fresh files, and files whose delete
raised; the per-file `try` means a failed delete never aborts the pass
and the surrounding `try` never lets the sweep itself raise. -/
def cleanup_old_files (now maxAge : Int) (f : Folder) : Folder × Nat :=
  if f.present = false then
    (f, 0)
  else
    (⟨true, f.entries.filter (fun e => ! deletable now maxAge e)⟩,
     f.entries.countP (deletable now maxAge))

/-- One page of a stored PDF: a page rendered from a normalized image
(as `images_to_pdf` produces) or an abstract page of an uploaded PDF. -/
inductive Page where
  | fromImage (img : Image)
  | raw (id : Nat)
deriving DecidableEq

/-- Contents of one stored file: a parsable PDF, a decodable image, or
anything else. -/
inductive FileData where
  | pdf (pages : List Page)
  | image (img : Image)
  | blob (id : Nat)
deriving DecidableEq

/-- The storage area: what each path currently holds, if anything. -/
abbrev Store : Type := String → Option FileData

/-- Writing one file: `open(path, 'wb')` plus the library save calls
replace whatever the path held. -/
def Store.set (st : Store) (p : String) (d : FileData) : Store :=
  fun q => if q = p then some d else st q

/-- `os.path.join(self.upload_folder, output_filename)` of
converters.py lines 97, 131 and 169. -/
def outputPath (folder name : String) : String :=
  folder ++ "/" ++ name

/-- `Image.open(path)`: succeeds exactly on a stored decodable image;
a missing or non-image file raises. -/
def decodeImageFile : Option FileData → Option Image
  | some (FileData.image i) => some i
  | _ => none

/-- `PdfReader(path)` / `merger.append(path)`: succeeds exactly on a
stored parsable PDF; a missing or unparsable file raises. -/
def parseStoredPdf : Option FileData → Option (List Page)
  | some (FileData.pdf ps) => some ps
  | _ => none

/-- The slice of `get_pdf_info` this model can see: the page count
(metadata and byte size live in the delegated libraries and the
filesystem). -/
structure PdfInfo where
  pages : Nat
deriving DecidableEq

/-- images_to_pdf at the storage level: on any failure nothing has been
written yet (the save on lines 99-108 runs only after every image
decoded), on success the single output path is written and returned. -/
def images_to_pdf_st (st : Store) (folder : String) (paths : List String)
    (outName : String) : Store × Except ConvError String :=
  match images_to_pdf (paths.map (fun p => decodeImageFile (st p))) with
  | Except.error k => (st, Except.error k)
  | Except.ok imgs =>
      (Store.set st (outputPath folder outName) (FileData.pdf (imgs.map Page.fromImage)),
       Except.ok (outputPath folder outName))

/-- merge_pdfs at the storage level: `merger.write` runs only after
every append succeeded, so on failure nothing is written. -/
def merge_pdfs_st (st : Store) (folder : String) (paths : List String)
    (outName : String) : Store × Except ConvError String :=
  match merge_pdfs (paths.map (fun p => parseStoredPdf (st p))) with
  | Except.error k => (st, Except.error k)
  | Except.ok pages =>
      (Store.set st (outputPath folder outName) (FileData.pdf pages),
       Except.ok (outputPath folder outName))

/-- split_pdf at the storage level: the output file is opened and
written (lines 171-172) only after the page loop finished, so a parse
failure or an out-of-range page lookup writes nothing. -/
def split_pdf_st (st : Store) (folder pdfPath : String) (sp ep : Option Int)
    (outName : String) : Store × Except ConvError String :=
  match (parseStoredPdf (st pdfPath)).bind (fun pages => split_pdf pages sp ep) with
  | none => (st, Except.error ConvError.corruptDocument)
  | some outPages =>
      (Store.set st (outputPath folder outName) (FileData.pdf outPages),
       Except.ok (outputPath folder outName))

/-- DocumentConverter.get_pdf_info (converters.py lines 176-195) at the
storage level: reads the file, writes nothing, returns an info record. -/
def get_pdf_info (st : Store) (pdfPath : String) : Store × Except ConvError PdfInfo :=
  match parseStoredPdf (st pdfPath) with
  | none => (st, Except.error ConvError.corruptDocument)
  | some pages => (st, Except.ok ⟨pages.length⟩)

/-- A two-file storage area used to exhibit the output-name collision
of the pipeline operations. -/
def c8store : Store := fun p =>
  if p = "up/a.pdf" then some (FileData.pdf [Page.raw 0])
  else if p = "up/b.pdf" then some (FileData.pdf [Page.raw 1])
  else none

/-- Sample decoded images covering the four normalization branches:
alpha, palette, already-RGB, and grayscale. -/
def c3images : List Image :=
  [⟨"RGBA", Pixels.src 0⟩, ⟨"P", Pixels.src 1⟩, ⟨"RGB", Pixels.src 2⟩,
   ⟨"L", Pixels.src 3⟩]

/-- A storage directory holding one file aged 45 minutes and one aged
5 minutes at observation time 2700 s (the scenario of the testable
properties, with a 30-minute retention threshold). -/
def c5folder : Folder :=
  ⟨true, [⟨"old.pdf", true, 0, false⟩, ⟨"new.pdf", true, 2400, false⟩]⟩

/-- Entries swept before the failing delete. -/
def c9pre : List FsEntry := [⟨"a.pdf", true, 0, false⟩]

/-- Entries swept after the failing delete. -/
def c9post : List FsEntry := [⟨"c.pdf", true, 0, false⟩]

/-- An over-age regular file whose delete raises. -/
def c9bad : FsEntry := ⟨"b.pdf", true, 0, true⟩

/-- Evaluating the page-copy loop of `split_pdf`: when every index of
the range is in bounds, the loop yields exactly the corresponding
contiguous slice of the source pages. -/
theorem mapM_getElem_range' {α : Type} (pages : List α) :
    ∀ (n lo : Nat), lo + n ≤ pages.length →
      (List.range' lo n).mapM (fun i => pages[i]?) = some ((pages.drop lo).take n) := by
  intro n
  induction n with
  | zero =>
      intro lo _
      have h0 : List.range' lo 0 = [] := rfl
      rw [h0, List.mapM_nil]
      simp
  | succ n ih =>
      intro lo h
      rw [List.range'_succ, List.mapM_cons]
      have hlo : lo < pages.length := by omega
      rw [List.getElem?_eq_getElem hlo, ih (lo + 1) (by omega)]
      show some (pages[lo] :: (pages.drop (lo + 1)).take n) =
        some ((pages.drop lo).take (n + 1))
      rw [List.drop_eq_getElem_cons hlo, List.take_succ_cons]

/-- A non-empty list is not `isEmpty` (the guard shared by the empty
checks of `images_to_pdf` and `merge_pdfs`). -/
theorem isEmpty_false {β : Type} (l : List β) (h : l ≠ []) : l.isEmpty = false := by
  rcases l with _ | ⟨a, t⟩
  · exact absurd rfl h
  · rfl

/-- Appending a list of parsable documents parses them all in order. -/
theorem mapM_parsePdfFile_map_some {α : Type} (docs : List (List α)) :
    (docs.map some).mapM parsePdfFile = Except.ok docs := by
  induction docs with
  | nil => rfl
  | cons d ds ih =>
      rw [List.map_cons, List.mapM_cons, ih]
      rfl

/-- Mapping a function over a failed Except result keeps the error. -/
theorem except_map_error {ε α β : Type} (f : α → β) (e : ε) :
    Except.map f (Except.error e : Except ε α) = Except.error e := rfl

/-- Mapping a function over a successful Except result applies it. -/
theorem except_map_ok {ε α β : Type} (f : α → β) (a : α) :
    Except.map f (Except.ok a : Except ε α) = Except.ok (f a) := rfl

/-- An unparsable input makes the merge append loop fail with the
corrupt-document kind. -/
theorem merge_mapM_none {α : Type} (pdfs : List (Option (List α))) (h : none ∈ pdfs) :
    pdfs.mapM parsePdfFile = Except.error ConvError.corruptDocument := by
  induction pdfs with
  | nil => cases h
  | cons a l ih =>
      rw [List.mapM_cons]
      cases a with
      | none => rfl
      | some d =>
          have h' : none ∈ l := by
            rcases List.mem_cons.mp h with h0 | h0
            · exact absurd h0 (by simp)
            · exact h0
          rw [ih h']
          rfl

/-- With every input parsable the merge append loop succeeds. -/
theorem merge_mapM_ok {α : Type} (pdfs : List (Option (List α))) (h : ¬ none ∈ pdfs) :
    ∃ docs, pdfs.mapM parsePdfFile = Except.ok docs := by
  induction pdfs with
  | nil => exact ⟨[], rfl⟩
  | cons a l ih =>
      cases a with
      | none => exact absurd (List.mem_cons_self _ _) h
      | some d =>
          have h' : ¬ none ∈ l := fun hl => h (List.mem_cons_of_mem _ hl)
          obtain ⟨ds, hds⟩ := ih h'
          refine ⟨d :: ds, ?_⟩
          rw [List.mapM_cons, hds]
          rfl

/-- Decoding a list of decodable images normalizes them all in order. -/
theorem images_mapM_map_some (imgs : List Image) :
    (imgs.map some).mapM (fun o => Except.map normalizeImage (decodeOrFail o)) =
      Except.ok (imgs.map normalizeImage) := by
  induction imgs with
  | nil => rfl
  | cons i l ih =>
      rw [List.map_cons, List.mapM_cons, ih, List.map_cons]
      rfl

/-- An undecodable input makes the image decode loop fail with the
invalid-input kind. -/
theorem images_mapM_none (imgs : List (Option Image)) (h : none ∈ imgs) :
    imgs.mapM (fun o => Except.map normalizeImage (decodeOrFail o)) =
      Except.error ConvError.invalidInput := by
  induction imgs with
  | nil => cases h
  | cons a l ih =>
      rw [List.mapM_cons]
      cases a with
      | none => rfl
      | some i =>
          have h' : none ∈ l := by
            rcases List.mem_cons.mp h with h0 | h0
            · exact absurd h0 (by simp)
            · exact h0
          rw [ih h']
          rfl

/-- With every input decodable the image decode loop succeeds. -/
theorem images_mapM_ok (imgs : List (Option Image)) (h : ¬ none ∈ imgs) :
    ∃ out, imgs.mapM (fun o => Except.map normalizeImage (decodeOrFail o)) =
      Except.ok out := by
  induction imgs with
  | nil => exact ⟨[], rfl⟩
  | cons a l ih =>
      cases a with
      | none => exact absurd (List.mem_cons_self _ _) h
      | some i =>
          have h' : ¬ none ∈ l := fun hl => h (List.mem_cons_of_mem _ hl)
          obtain ⟨ds, hds⟩ := ih h'
          refine ⟨normalizeImage i :: ds, ?_⟩
          rw [List.mapM_cons, hds]
          rfl

/-- images_to_pdf fails with the invalid-input kind exactly on an empty
list or an undecodable input. -/
theorem images_to_pdf_error_iff (imgs : List (Option Image)) :
    images_to_pdf imgs = Except.error ConvError.invalidInput ↔
      (imgs = [] ∨ none ∈ imgs) := by
  by_cases h0 : imgs = []
  · subst h0
    simp [images_to_pdf]
  · have hbody : images_to_pdf imgs =
        imgs.mapM (fun o => Except.map normalizeImage (decodeOrFail o)) := by
      unfold images_to_pdf
      rw [if_neg (by simp [isEmpty_false imgs h0])]
    rw [hbody]
    by_cases hn : none ∈ imgs
    · rw [images_mapM_none imgs hn]
      simp [hn]
    · obtain ⟨out, hout⟩ := images_mapM_ok imgs hn
      rw [hout]
      simp [h0, hn]

/-- images_to_pdf succeeds exactly on a non-empty list of decodable
inputs. -/
theorem images_to_pdf_ok_iff (imgs : List (Option Image)) :
    (∃ out, images_to_pdf imgs = Except.ok out) ↔
      (imgs ≠ [] ∧ ¬ none ∈ imgs) := by
  by_cases h0 : imgs = []
  · subst h0
    simp [images_to_pdf]
  · have hbody : images_to_pdf imgs =
        imgs.mapM (fun o => Except.map normalizeImage (decodeOrFail o)) := by
      unfold images_to_pdf
      rw [if_neg (by simp [isEmpty_false imgs h0])]
    rw [hbody]
    by_cases hn : none ∈ imgs
    · rw [images_mapM_none imgs hn]
      simp [hn]
    · obtain ⟨out, hout⟩ := images_mapM_ok imgs hn
      rw [hout]
      simp [h0, hn]

/-- merge_pdfs fails with the invalid-input kind exactly on an empty
list. -/
theorem merge_pdfs_error_invalid_iff (pdfs : List (Option (List Page))) :
    merge_pdfs pdfs = Except.error ConvError.invalidInput ↔ pdfs = [] := by
  by_cases h0 : pdfs = []
  · subst h0
    simp [merge_pdfs]
  · have hbody : merge_pdfs pdfs =
        Except.map List.flatten (pdfs.mapM parsePdfFile) := by
      unfold merge_pdfs
      rw [if_neg (by simp [isEmpty_false pdfs h0])]
    rw [hbody]
    by_cases hn : none ∈ pdfs
    · rw [merge_mapM_none pdfs hn, except_map_error]
      simp [h0]
    · obtain ⟨docs, hd⟩ := merge_mapM_ok pdfs hn
      rw [hd, except_map_ok]
      simp [h0]

/-- merge_pdfs fails with the corrupt-document kind exactly on a
non-empty list holding an unparsable input. -/
theorem merge_pdfs_error_corrupt_iff (pdfs : List (Option (List Page))) :
    merge_pdfs pdfs = Except.error ConvError.corruptDocument ↔
      (pdfs ≠ [] ∧ none ∈ pdfs) := by
  by_cases h0 : pdfs = []
  · subst h0
    simp [merge_pdfs]
  · have hbody : merge_pdfs pdfs =
        Except.map List.flatten (pdfs.mapM parsePdfFile) := by
      unfold merge_pdfs
      rw [if_neg (by simp [isEmpty_false pdfs h0])]
    rw [hbody]
    by_cases hn : none ∈ pdfs
    · rw [merge_mapM_none pdfs hn, except_map_error]
      simp [h0, hn]
    · obtain ⟨docs, hd⟩ := merge_mapM_ok pdfs hn
      rw [hd, except_map_ok]
      simp [h0, hn]

/-- merge_pdfs succeeds exactly on a non-empty list of parsable
inputs. -/
theorem merge_pdfs_ok_iff (pdfs : List (Option (List Page))) :
    (∃ out, merge_pdfs pdfs = Except.ok out) ↔
      (pdfs ≠ [] ∧ ¬ none ∈ pdfs) := by
  by_cases h0 : pdfs = []
  · subst h0
    simp [merge_pdfs]
  · have hbody : merge_pdfs pdfs =
        Except.map List.flatten (pdfs.mapM parsePdfFile) := by
      unfold merge_pdfs
      rw [if_neg (by simp [isEmpty_false pdfs h0])]
    rw [hbody]
    by_cases hn : none ∈ pdfs
    · rw [merge_mapM_none pdfs hn, except_map_error]
      simp [h0, hn]
    · obtain ⟨docs, hd⟩ := merge_mapM_ok pdfs hn
      rw [hd, except_map_ok]
      simp [h0, hn]

/-- C2: on a non-empty ordered list of parsable documents, merge_pdfs
yields the concatenation of their page sequences in input order, so the
output page count is the sum of the input page counts. -/
theorem merge_pdfs_concat {α : Type} (docs : List (List α)) (h : docs ≠ []) :
    merge_pdfs (docs.map some) = Except.ok docs.flatten ∧
    docs.flatten.length = (docs.map List.length).sum := by
  constructor
  · unfold merge_pdfs
    rw [if_neg (by simp [isEmpty_false (docs.map some) (by simp [h])]),
      mapM_parsePdfFile_map_some]
    rfl
  · rw [List.length_flatten]

/-- Witness for C2 at three documents of page counts 2, 1 and 3. -/
theorem merge_pdfs_concat_witness :
    (([[1, 2], [3], [4, 5, 6]] : List (List Nat)) ≠ []) ∧
    (merge_pdfs (([[1, 2], [3], [4, 5, 6]] : List (List Nat)).map some) =
        Except.ok ([[1, 2], [3], [4, 5, 6]] : List (List Nat)).flatten ∧
      ([[1, 2], [3], [4, 5, 6]] : List (List Nat)).flatten.length =
        (([[1, 2], [3], [4, 5, 6]] : List (List Nat)).map List.length).sum) :=
  ⟨by decide, merge_pdfs_concat [[1, 2], [3], [4, 5, 6]] (by decide)⟩

/-- Every image the pipeline emits is in three-channel RGB mode. -/
theorem normalizeImage_mode (img : Image) : (normalizeImage img).mode = "RGB" := by
  unfold normalizeImage
  split_ifs with h1 h2 h3
  · rfl
  · rfl
  · exact h3
  · rfl

/-- C3: on a non-empty list of decodable images, images_to_pdf yields
one page per image in input order; every page is normalized to the
three-channel RGB model, alpha and palette images by pasting onto a
white background (using the alpha band as mask exactly for RGBA). -/
theorem images_to_pdf_pages (imgs : List Image) (h : imgs ≠ []) :
    images_to_pdf (imgs.map some) = Except.ok (imgs.map normalizeImage) ∧
    (imgs.map normalizeImage).length = imgs.length ∧
    (∀ img ∈ imgs, (normalizeImage img).mode = "RGB") ∧
    (∀ img ∈ imgs, img.mode = "RGBA" →
        (normalizeImage img).pixels =
          Pixels.pastedMasked 255 255 255 img.pixels (Pixels.lastBand img.pixels)) ∧
    (∀ img ∈ imgs, (img.mode = "LA" ∨ img.mode = "P") →
        (normalizeImage img).pixels = Pixels.pastedUnmasked 255 255 255 img.pixels) := by
  refine ⟨?_, by simp, fun img _ => normalizeImage_mode img, ?_, ?_⟩
  · unfold images_to_pdf
    rw [if_neg (by simp [isEmpty_false (imgs.map some) (by simp [h])])]
    exact images_mapM_map_some imgs
  · intro img _ hm
    unfold normalizeImage
    rw [if_pos (Or.inl hm), if_pos hm]
  · intro img _ hm
    have hcond : img.mode = "RGBA" ∨ img.mode = "LA" ∨ img.mode = "P" := by
      rcases hm with hm | hm
      · exact Or.inr (Or.inl hm)
      · exact Or.inr (Or.inr hm)
    have hnot : ¬ (img.mode = "RGBA") := by
      rcases hm with hm | hm <;> rw [hm] <;> decide
    unfold normalizeImage
    rw [if_pos hcond, if_neg hnot]

/-- Witness for C3 at one image of each normalization branch. -/
theorem images_to_pdf_pages_witness :
    (c3images ≠ []) ∧
    (images_to_pdf (c3images.map some) = Except.ok (c3images.map normalizeImage) ∧
      (c3images.map normalizeImage).length = c3images.length ∧
      (∀ img ∈ c3images, (normalizeImage img).mode = "RGB") ∧
      (∀ img ∈ c3images, img.mode = "RGBA" →
          (normalizeImage img).pixels =
            Pixels.pastedMasked 255 255 255 img.pixels (Pixels.lastBand img.pixels)) ∧
      (∀ img ∈ c3images, (img.mode = "LA" ∨ img.mode = "P") →
          (normalizeImage img).pixels = Pixels.pastedUnmasked 255 255 255 img.pixels)) :=
  ⟨by decide, images_to_pdf_pages c3images (by decide)⟩

/-- C4: images_to_pdf fails with the invalid-input kind exactly when
the list is empty or an input is undecodable (and succeeds otherwise);
merge_pdfs fails with the invalid-input kind exactly when its list is
empty and with the corrupt-document kind exactly when some input is
unparsable (and succeeds otherwise); at the storage level a failing
call writes nothing, so no output path exists. -/
theorem pipeline_error_kinds (imgs : List (Option Image))
    (pdfs : List (Option (List Page))) (st : Store) (folder outName : String)
    (ipaths mpaths : List String) :
    (images_to_pdf imgs = Except.error ConvError.invalidInput ↔
        (imgs = [] ∨ none ∈ imgs)) ∧
    ((∃ out, images_to_pdf imgs = Except.ok out) ↔ (imgs ≠ [] ∧ ¬ none ∈ imgs)) ∧
    (merge_pdfs pdfs = Except.error ConvError.invalidInput ↔ pdfs = []) ∧
    (merge_pdfs pdfs = Except.error ConvError.corruptDocument ↔
        (pdfs ≠ [] ∧ none ∈ pdfs)) ∧
    ((∃ out, merge_pdfs pdfs = Except.ok out) ↔ (pdfs ≠ [] ∧ ¬ none ∈ pdfs)) ∧
    (∀ k, (images_to_pdf_st st folder ipaths outName).2 = Except.error k →
        (images_to_pdf_st st folder ipaths outName).1 = st) ∧
    (∀ k, (merge_pdfs_st st folder mpaths outName).2 = Except.error k →
        (merge_pdfs_st st folder mpaths outName).1 = st) := by
  refine ⟨images_to_pdf_error_iff imgs, images_to_pdf_ok_iff imgs,
    merge_pdfs_error_invalid_iff pdfs, merge_pdfs_error_corrupt_iff pdfs,
    merge_pdfs_ok_iff pdfs, ?_, ?_⟩
  · intro k hk
    unfold images_to_pdf_st at hk ⊢
    cases himg : images_to_pdf (ipaths.map fun p => decodeImageFile (st p)) with
    | error k2 => rfl
    | ok v =>
        rw [himg] at hk
        simp at hk
  · intro k hk
    unfold merge_pdfs_st at hk ⊢
    cases hm : merge_pdfs (mpaths.map fun p => parseStoredPdf (st p)) with
    | error k2 => rfl
    | ok v =>
        rw [hm] at hk
        simp at hk

/-- Witness for C4: invoking images_to_pdf at the storage level on an
empty upload list fails with the invalid-input kind and leaves the
storage area untouched. -/
theorem pipeline_error_kinds_witness :
    ((images_to_pdf_st (fun _ => none) "up" [] "o.pdf").2 =
        Except.error ConvError.invalidInput) ∧
    ((images_to_pdf_st (fun _ => none) "up" [] "o.pdf").1 = (fun _ => none)) :=
  ⟨rfl, (pipeline_error_kinds [] [] (fun _ => none) "up" "o.pdf" [] []).2.2.2.2.2.1
    ConvError.invalidInput rfl⟩

/-- C1: for every document with at least one page and every explicitly
requested range (s, e), `split_pdf` clamps both bounds into
[1, total], further clamps the end to be at least the clamped start,
never fails, and produces exactly the contiguous slice
[clamped start, clamped end] of the source pages, whose page count is
clamp(e,1,total) - clamp(s,1,total) + 1 whenever the clamped end is at
least the clamped start. -/
theorem split_pdf_clamped_range {α : Type} (pages : List α) (s e cs ce : Int)
    (htot : 1 ≤ pages.length)
    (hcs : cs = max 1 (min s (pages.length : Int)))
    (hce : ce = max 1 (min e (pages.length : Int))) :
    ∃ out, split_pdf pages (some s) (some e) = some out ∧
      out = (pages.drop (cs - 1).toNat).take (max cs ce - cs + 1).toNat ∧
      (cs ≤ ce →
        (out.length : Int) = ce - cs + 1 ∧
        out = (pages.drop (cs - 1).toNat).take (ce - cs + 1).toNat) := by
  have h1 : startClamped pages (some s) = cs := by
    rw [hcs]; rfl
  have h2 : endClamped pages (some s) (some e) = max cs ce := by
    show max (startClamped pages (some s)) (min e (pages.length : Int)) = max cs ce
    rw [h1]
    omega
  have hb1 : 1 ≤ cs := by omega
  have hb2 : cs ≤ (pages.length : Int) := by omega
  have hb3 : max cs ce ≤ (pages.length : Int) := by omega
  have key := mapM_getElem_range' pages (max cs ce - (cs - 1)).toNat (cs - 1).toNat
    (by omega)
  have hsplit : split_pdf pages (some s) (some e) =
      some ((pages.drop (cs - 1).toNat).take (max cs ce - (cs - 1)).toNat) := by
    unfold split_pdf
    rw [h1, h2]
    exact key
  refine ⟨_, hsplit, ?_, ?_⟩
  · congr 1
    omega
  · intro hle
    have hmax : max cs ce = ce := by omega
    constructor
    · rw [List.length_take, List.length_drop]
      omega
    · congr 1
      omega

/-- Witness for C1 at a four-page document with the inverted-looking
request (2, 9): both clamps land on [2, 4] and the call returns the
slice of pages 2 through 4. -/
theorem split_pdf_clamped_range_witness :
    (1 ≤ ([10, 20, 30, 40] : List Nat).length) ∧
    ((2 : Int) = max 1 (min 2 (([10, 20, 30, 40] : List Nat).length : Int))) ∧
    ((4 : Int) = max 1 (min 9 (([10, 20, 30, 40] : List Nat).length : Int))) ∧
    (∃ out, split_pdf ([10, 20, 30, 40] : List Nat) (some 2) (some 9) = some out ∧
      out = (([10, 20, 30, 40] : List Nat).drop ((2 : Int) - 1).toNat).take
          (max (2 : Int) 4 - 2 + 1).toNat ∧
      ((2 : Int) ≤ 4 →
        (out.length : Int) = 4 - 2 + 1 ∧
        out = (([10, 20, 30, 40] : List Nat).drop ((2 : Int) - 1).toNat).take
            ((4 : Int) - 2 + 1).toNat)) :=
  ⟨by decide, by decide, by decide,
    split_pdf_clamped_range [10, 20, 30, 40] 2 9 2 4 (by decide) (by decide) (by decide)⟩

/-- C7: on a document with at least one page, `split_pdf` with both
page parameters absent is the identity on the page sequence: the start
defaults to 1, the end to the last page, and the output matches the
source page for page. -/
theorem split_pdf_default_identity {α : Type} (pages : List α) (h : 1 ≤ pages.length) :
    ∃ out, split_pdf pages none none = some out ∧ out = pages ∧
      out.length = pages.length := by
  have h1 : startClamped pages none = 1 := by
    show max 1 (min 1 (pages.length : Int)) = 1
    omega
  have h2 : endClamped pages none none = (pages.length : Int) := by
    show max (startClamped pages none) (min (pages.length : Int) (pages.length : Int)) =
      (pages.length : Int)
    rw [h1]
    omega
  have key := mapM_getElem_range' pages pages.length 0 (by omega)
  refine ⟨pages, ?_, rfl, rfl⟩
  unfold split_pdf
  rw [h1, h2]
  have e1 : ((1 : Int) - 1).toNat = 0 := by omega
  have e2 : (((pages.length : Int)) - (1 - 1)).toNat = pages.length := by omega
  rw [e1, e2]
  simpa using key

/-- Witness for C7 at a two-page document. -/
theorem split_pdf_default_identity_witness :
    (1 ≤ ([5, 6] : List Nat).length) ∧
    (∃ out, split_pdf ([5, 6] : List Nat) none none = some out ∧ out = [5, 6] ∧
      out.length = ([5, 6] : List Nat).length) :=
  ⟨by decide, split_pdf_default_identity [5, 6] (by decide)⟩

/-- C10: on a document with at least one page every page index the
split loop reads is in bounds, so the lookup's error branch is
unreachable and the call always yields a document; the precondition is
necessary, because on a zero-page document the clamping always yields
start = end = 1 and the loop reads the out-of-bounds page index 0,
which fails. -/
theorem split_pdf_index_safety :
    (∀ (pages : List Nat) (sp ep : Option Int), 1 ≤ pages.length →
        ∃ out, split_pdf pages sp ep = some out) ∧
    (∀ sp ep : Option Int,
        startClamped ([] : List Nat) sp = 1 ∧
        endClamped ([] : List Nat) sp ep = 1 ∧
        split_pdf ([] : List Nat) sp ep = none) := by
  constructor
  · intro pages sp ep htot
    have hs : 1 ≤ startClamped pages sp ∧ startClamped pages sp ≤ (pages.length : Int) := by
      unfold startClamped totalPages
      constructor <;> omega
    have he : startClamped pages sp ≤ endClamped pages sp ep ∧
        endClamped pages sp ep ≤ (pages.length : Int) := by
      unfold endClamped totalPages
      constructor <;> omega
    have key := mapM_getElem_range' pages
      (endClamped pages sp ep - (startClamped pages sp - 1)).toNat
      (startClamped pages sp - 1).toNat (by omega)
    exact ⟨_, by unfold split_pdf; exact key⟩
  · intro sp ep
    have h1 : startClamped ([] : List Nat) sp = 1 := by
      show max 1 (min (sp.getD 1) (totalPages ([] : List Nat))) = 1
      show max 1 (min (sp.getD 1) 0) = 1
      omega
    have h2 : endClamped ([] : List Nat) sp ep = 1 := by
      show max (startClamped ([] : List Nat) sp)
        (min (ep.getD (totalPages ([] : List Nat))) (totalPages ([] : List Nat))) = 1
      rw [h1]
      show max 1 (min (ep.getD 0) 0) = 1
      omega
    refine ⟨h1, h2, ?_⟩
    unfold split_pdf
    rw [h1, h2]
    decide

/-- Witness for C10: the in-bounds half at a one-page document with an
out-of-range, inverted request. -/
theorem split_pdf_index_safety_witness :
    (1 ≤ ([7] : List Nat).length) ∧
    (∃ out, split_pdf ([7] : List Nat) (some 5) (some (-2)) = some out) :=
  ⟨by decide, split_pdf_index_safety.1 [7] (some 5) (some (-2)) (by decide)⟩

/-- C5: when no delete raises, one sweep deletes exactly the regular
files whose age strictly exceeds the retention threshold, keeps
everything else, returns the number deleted, and returns zero leaving
the folder as it is when the storage area is absent or empty. -/
theorem cleanup_old_files_spec (now maxAge : Int) (f : Folder)
    (hok : ∀ e ∈ f.entries, e.deleteFails = false) :
    (f.present = false → cleanup_old_files now maxAge f = (f, 0)) ∧
    (f.present = true →
        (cleanup_old_files now maxAge f).1.entries =
          f.entries.filter (fun e => ! oldFile now maxAge e) ∧
        (cleanup_old_files now maxAge f).2 = f.entries.countP (oldFile now maxAge)) ∧
    (f.entries = [] → cleanup_old_files now maxAge f = (f, 0)) ∧
    (∀ e ∈ f.entries, f.present = true → oldFile now maxAge e = false →
        e ∈ (cleanup_old_files now maxAge f).1.entries) := by
  obtain ⟨p, es⟩ := f
  have hcong : ∀ e ∈ es, deletable now maxAge e = oldFile now maxAge e := by
    intro e he
    unfold deletable
    rw [hok e he]
    simp
  cases p with
  | false =>
      have hred : cleanup_old_files now maxAge ⟨false, es⟩ = (⟨false, es⟩, 0) := by
        unfold cleanup_old_files
        rw [if_pos rfl]
      exact ⟨fun _ => hred, fun h2 => absurd h2 (by simp), fun _ => hred,
        fun e he h2 => absurd h2 (by simp)⟩
  | true =>
      have hred : cleanup_old_files now maxAge ⟨true, es⟩ =
          (⟨true, es.filter (fun e => ! deletable now maxAge e)⟩,
           es.countP (deletable now maxAge)) := by
        unfold cleanup_old_files
        rw [if_neg (by simp)]
      have hfe : es.filter (fun e => ! deletable now maxAge e) =
          es.filter (fun e => ! oldFile now maxAge e) := by
        apply List.filter_congr
        intro e he
        rw [hcong e he]
      have hce : es.countP (deletable now maxAge) = es.countP (oldFile now maxAge) := by
        apply List.countP_congr
        intro e he
        rw [hcong e he]
      refine ⟨fun h1 => absurd h1 (by simp), fun _ => ⟨?_, ?_⟩, ?_, ?_⟩
      · rw [hred]
        exact hfe
      · rw [hred]
        exact hce
      · intro h3
        subst h3
        exact hred
      · intro e he _ hold
        rw [hred]
        apply List.mem_filter.mpr
        refine ⟨he, ?_⟩
        show (! deletable now maxAge e) = true
        rw [hcong e he, hold]
        rfl

/-- Witness for C5: at a 30-minute threshold, a folder holding a file
aged 45 minutes and a file aged 5 minutes; the sweep keeps exactly the
fresh file and counts exactly the old one. -/
theorem cleanup_old_files_spec_witness :
    (∀ e ∈ c5folder.entries, e.deleteFails = false) ∧
    ((cleanup_old_files 2700 1800 c5folder).1.entries =
        c5folder.entries.filter (fun e => ! oldFile 2700 1800 e) ∧
      (cleanup_old_files 2700 1800 c5folder).2 =
        c5folder.entries.countP (oldFile 2700 1800)) :=
  ⟨by decide, (cleanup_old_files_spec 2700 1800 c5folder (by decide)).2.1 (by decide)⟩

/-- C9: a file whose delete raises is simply kept: it is not counted,
every other entry is still processed (the returned count is the count
of deletable entries before plus after it), and the sweep, a total
function, still returns. -/
theorem cleanup_delete_failure_isolated (now maxAge : Int) (pre post : List FsEntry)
    (bad : FsEntry) (hfail : bad.deleteFails = true) :
    (cleanup_old_files now maxAge ⟨true, pre ++ bad :: post⟩).2 =
      pre.countP (deletable now maxAge) + post.countP (deletable now maxAge) ∧
    bad ∈ (cleanup_old_files now maxAge ⟨true, pre ++ bad :: post⟩).1.entries := by
  have hbad : deletable now maxAge bad = false := by
    unfold deletable
    rw [hfail]
    simp
  have hred : cleanup_old_files now maxAge ⟨true, pre ++ bad :: post⟩ =
      (⟨true, (pre ++ bad :: post).filter (fun e => ! deletable now maxAge e)⟩,
       (pre ++ bad :: post).countP (deletable now maxAge)) := by
    unfold cleanup_old_files
    rw [if_neg (by simp)]
  constructor
  · rw [hred]
    show (pre ++ bad :: post).countP (deletable now maxAge) = _
    rw [List.countP_append, List.countP_cons, hbad]
    simp
  · rw [hred]
    show bad ∈ (pre ++ bad :: post).filter (fun e => ! deletable now maxAge e)
    apply List.mem_filter.mpr
    constructor
    · simp
    · show (! deletable now maxAge bad) = true
      rw [hbad]
      rfl

/-- Witness for C9: an over-age file with a raising delete between two
over-age deletable files; the sweep counts the two neighbours and keeps
the failing file. -/
theorem cleanup_delete_failure_isolated_witness :
    (c9bad.deleteFails = true) ∧
    ((cleanup_old_files 2700 1800 ⟨true, c9pre ++ c9bad :: c9post⟩).2 =
        c9pre.countP (deletable 2700 1800) + c9post.countP (deletable 2700 1800) ∧
      c9bad ∈ (cleanup_old_files 2700 1800 ⟨true, c9pre ++ c9bad :: c9post⟩).1.entries) :=
  ⟨by decide, cleanup_delete_failure_isolated 2700 1800 c9pre c9post c9bad (by decide)⟩

/-- C6: allowed_file is false on any name without a dot; with a dot it
returns, for kind image and for kind pdf, exactly the membership of the
lowercased final extension in that kind's allow-set — so a case-variant
extension outside the set, such as .EXE for kind image, is rejected. -/
theorem allowed_file_spec (filename : List Char) :
    (filename.contains '.' = false →
        (allowed_file filename "image" = false ∧ allowed_file filename "pdf" = false)) ∧
    (filename.contains '.' = true →
        (allowed_file filename "image" =
            ALLOWED_IMAGE_EXTENSIONS.contains (lowerExt filename) ∧
         allowed_file filename "pdf" =
            ALLOWED_PDF_EXTENSIONS.contains (lowerExt filename))) ∧
    allowed_file "virus.EXE".toList "image" = false ∧
    allowed_file "photo.JPG".toList "image" = true ∧
    allowed_file "doc.PDF".toList "pdf" = true ∧
    allowed_file "nodotpdf".toList "pdf" = false := by
  refine ⟨?_, ?_, by decide, by decide, by decide, by decide⟩
  · intro h
    constructor <;> (unfold allowed_file; rw [if_pos h])
  · intro h
    constructor
    · unfold allowed_file
      rw [if_neg (by rw [h]; simp), if_pos rfl]
    · unfold allowed_file
      rw [if_neg (by rw [h]; simp), if_neg (by decide), if_pos rfl]

/-- Witness for C6 at a mixed-case png name. -/
theorem allowed_file_spec_witness :
    ("archivo.PnG".toList.contains '.' = true) ∧
    (allowed_file "archivo.PnG".toList "image" =
        ALLOWED_IMAGE_EXTENSIONS.contains (lowerExt "archivo.PnG".toList) ∧
     allowed_file "archivo.PnG".toList "pdf" =
        ALLOWED_PDF_EXTENSIONS.contains (lowerExt "archivo.PnG".toList)) :=
  ⟨by decide, (allowed_file_spec "archivo.PnG".toList).2.1 (by decide)⟩

/-- C8 (amended): each writing operation touches at most the single
output path (storage folder joined with the caller-supplied name), so
every file whose path differs from the output path — in particular
every input not named as the output — is unchanged; a successful call
returns exactly that output path; and get_pdf_info writes nothing and
returns an info record rather than a path. -/
theorem pipeline_frame (st : Store) (folder outName pdfPath q : String)
    (paths : List String) (sp ep : Option Int)
    (hq : q ≠ outputPath folder outName) :
    (images_to_pdf_st st folder paths outName).1 q = st q ∧
    (merge_pdfs_st st folder paths outName).1 q = st q ∧
    (split_pdf_st st folder pdfPath sp ep outName).1 q = st q ∧
    (∀ r, (images_to_pdf_st st folder paths outName).2 = Except.ok r →
        r = outputPath folder outName) ∧
    (∀ r, (merge_pdfs_st st folder paths outName).2 = Except.ok r →
        r = outputPath folder outName) ∧
    (∀ r, (split_pdf_st st folder pdfPath sp ep outName).2 = Except.ok r →
        r = outputPath folder outName) ∧
    (get_pdf_info st pdfPath).1 = st := by
  refine ⟨?_, ?_, ?_, ?_, ?_, ?_, ?_⟩
  · unfold images_to_pdf_st
    cases images_to_pdf (paths.map fun p => decodeImageFile (st p)) with
    | error k => rfl
    | ok v =>
        show Store.set st (outputPath folder outName) _ q = st q
        unfold Store.set
        rw [if_neg hq]
  · unfold merge_pdfs_st
    cases merge_pdfs (paths.map fun p => parseStoredPdf (st p)) with
    | error k => rfl
    | ok v =>
        show Store.set st (outputPath folder outName) _ q = st q
        unfold Store.set
        rw [if_neg hq]
  · unfold split_pdf_st
    cases (parseStoredPdf (st pdfPath)).bind (fun pages => split_pdf pages sp ep) with
    | none => rfl
    | some outPages =>
        show Store.set st (outputPath folder outName) _ q = st q
        unfold Store.set
        rw [if_neg hq]
  · intro r hr
    unfold images_to_pdf_st at hr
    cases himg : images_to_pdf (paths.map fun p => decodeImageFile (st p)) with
    | error k =>
        rw [himg] at hr
        simp at hr
    | ok v =>
        rw [himg] at hr
        simp at hr
        exact hr.symm
  · intro r hr
    unfold merge_pdfs_st at hr
    cases hm : merge_pdfs (paths.map fun p => parseStoredPdf (st p)) with
    | error k =>
        rw [hm] at hr
        simp at hr
    | ok v =>
        rw [hm] at hr
        simp at hr
        exact hr.symm
  · intro r hr
    unfold split_pdf_st at hr
    cases hs : (parseStoredPdf (st pdfPath)).bind (fun pages => split_pdf pages sp ep) with
    | none =>
        rw [hs] at hr
        simp at hr
    | some outPages =>
        rw [hs] at hr
        simp at hr
        exact hr.symm
  · unfold get_pdf_info
    cases parseStoredPdf (st pdfPath) with
    | none => rfl
    | some pages => rfl

/-- Witness for C8 at a concrete store: a path other than the output
path is untouched, and get_pdf_info leaves the store whole. -/
theorem pipeline_frame_witness :
    ("keep.txt" ≠ outputPath "up" "o.pdf") ∧
    (get_pdf_info c8store "up/a.pdf").1 = c8store :=
  ⟨by decide,
    (pipeline_frame c8store "up" "o.pdf" "up/a.pdf" "keep.txt" [] none none
      (by decide)).2.2.2.2.2.2⟩

/-- C8 counterexample: merging up/a.pdf with up/b.pdf under the
caller-supplied output name a.pdf succeeds, yet afterwards the first
input file no longer holds its original contents — so it is not true
that every input file is unchanged by every call. -/
theorem pipeline_frame_counterexample :
    (merge_pdfs_st c8store "up" ["up/a.pdf", "up/b.pdf"] "a.pdf").2 =
      Except.ok "up/a.pdf" ∧
    (merge_pdfs_st c8store "up" ["up/a.pdf", "up/b.pdf"] "a.pdf").1 "up/a.pdf" ≠
      c8store "up/a.pdf" := by
  constructor
  · rfl
  · decide

end Converters
